import Mathlib

/-!
Shallow embedding of the skill installer (src/__init__.py): the
marketplace desired-state reconciliation pass, the voice-driven
install / beta-install / remove handlers, the error-to-dialog mapping
and the disambiguation flow.  Python dicts are modelled as association
lists, the skills-data ledger as a list of name/record pairs,
exceptions as explicit error values, and the external skills-manager
collaborators (transport and catalog) as oracle parameters.
-/

namespace SkillInstaller

/-- One entry of the to_install or to_remove settings lists: a dict
carrying a raw skill name and an optional devices list. -/
structure DeltaEntry where
  name : String
  devices : Option (List String) := none
deriving Repr, DecidableEq

/-- Models the python expression name.split(".")[0]: the first
component of the split, that is the prefix of the raw name before its
first dot (the whole name when it has no dot). -/
def base_name (s : String) : String :=
  String.mk (s.toList.takeWhile (fun c => c ≠ '.'))

/-- The predicate of SkillInstallerSkill.__filter_by_uuid: keep an
entry when its devices field is falsy (absent or the empty list) or
contains this device uuid. -/
def keep_for_device (uuid : String) (s : DeltaEntry) : Bool :=
  match s.devices with
  | none => true
  | some ds => ds.isEmpty || ds.contains uuid

/-- Embeds SkillInstallerSkill.__filter_by_uuid. -/
def filter_by_uuid (uuid : String) (skills : List DeltaEntry) : List DeltaEntry :=
  skills.filter (keep_for_device uuid)

/-- Embeds the marketplace part of on_web_settings_change: every
to_install entry whose raw name also appears among the to_remove raw
names is dropped, and both lists are handed to handle_marketplace. -/
def on_web_settings_change_market (to_install to_remove : List DeltaEntry) :
    List DeltaEntry × List DeltaEntry :=
  (to_install.filter (fun e => decide (e.name ∉ to_remove.map (fun r => r.name))),
   to_remove)

/-- One catalog entry as reported by msm.list: a skill name and its
local-presence flag. -/
structure CatalogSkill where
  name : String
  is_local : Bool
deriving Repr, DecidableEq

/-- The filtering steps of __marketplace_install: device-scope filter,
split of the author from the name, drop names unknown to msm, drop
names already installed.  The result is exactly the list of names on
which the install closure is invoked. -/
def effective_install (uuid : String) (catalog : List CatalogSkill)
    (install_list : List DeltaEntry) : List String :=
  (((filter_by_uuid uuid install_list).map (fun s => base_name s.name)).filter
      (fun s => decide (s ∈ catalog.map (fun c => c.name)))).filter
    (fun s => decide (s ∉ (catalog.filter (fun c => c.is_local)).map (fun c => c.name)))

/-- The filtering steps of __marketplace_remove: device-scope filter,
split of the author from the name, keep only names currently installed.
The result is both the list handed to msm.apply and the list the
function returns. -/
def effective_remove (uuid : String) (catalog : List CatalogSkill)
    (remove_list : List DeltaEntry) : List String :=
  ((filter_by_uuid uuid remove_list).map (fun s => base_name s.name)).filter
    (fun s => decide (s ∈ (catalog.filter (fun c => c.is_local)).map (fun c => c.name)))

/-- Modelled from the spec: the BatchApplier contract of the external
msm.apply collaborator (spec section 4.5), which is not part of this
repository.  It runs the per-name operation once per name, capturing
per-item success or failure, and never raises out of the batch call.
The operation is abstracted as an oracle from a name to an optional
MsmException message (none meaning success): for installs this is the
closure of __marketplace_install, whose try/except appends the name to
the success or the failure list; for removals it is msm.remove. -/
def batch_run (op : String → Option String) : List String → List String × List String
  | [] => ([], [])
  | n :: ns =>
    let r := batch_run op ns
    match op n with
    | none => (n :: r.1, r.2)
    | some _ => (r.1, n :: r.2)

/-- After the install batch has executed, msm.list reflects the
successful installs: those skills are now locally present. -/
def catalog_after_installs (catalog : List CatalogSkill) (succ : List String) :
    List CatalogSkill :=
  catalog.map (fun s => if s.name ∈ succ then { s with is_local := true } else s)

/-- One skills-data ledger record.  Absent dict keys are modelled as
none; the field failure_message models the python key failure-message. -/
structure SkillRecord where
  beta : Option Bool := none
  name : Option String := none
  origin : Option String := none
  installation : Option String := none
  installed : Option Nat := none
  failure_message : Option String := none
  updated : Option Nat := none
deriving Repr, DecidableEq

/-- The skills-data ledger: a python dict from skill name to record. -/
abbrev Ledger := List (String × SkillRecord)

/-- Dict lookup. -/
def ledger_get : Ledger → String → Option SkillRecord
  | [], _ => none
  | p :: ps, k => if p.1 = k then some p.2 else ledger_get ps k

/-- Dict assignment (overwrite in place, append when absent). -/
def ledger_set : Ledger → String → SkillRecord → Ledger
  | [], k, v => [(k, v)]
  | p :: ps, k, v => if p.1 = k then (k, v) :: ps else p :: ledger_set ps k v

/-- Dict deletion. -/
def ledger_del (l : Ledger) (k : String) : Ledger :=
  l.filter (fun p => decide (p.1 ≠ k))

/-- The loop of handle_marketplace over the installed list: setdefault
the record and overwrite the marketplace install fields. -/
def mark_installed (now : Nat) (ledger : Ledger) (names : List String) : Ledger :=
  names.foldl (fun ld n =>
    let d := (ledger_get ld n).getD {}
    ledger_set ld n { d with origin := some "marketplace",
                             installation := some "installed",
                             installed := some now,
                             failure_message := some "",
                             updated := some 0 }) ledger

/-- The loop of handle_marketplace over the failed list. -/
def mark_failed (ledger : Ledger) (names : List String) : Ledger :=
  names.foldl (fun ld n =>
    let d := (ledger_get ld n).getD {}
    ledger_set ld n { d with origin := some "marketplace",
                             installation := some "failed",
                             installed := some 0,
                             failure_message := some "MsmException occured",
                             updated := some 0 }) ledger

/-- Embeds __marketplace_install: filter the delta, then run the batch
over the effective names, returning the success and failure lists. -/
def marketplace_install (uuid : String) (catalog : List CatalogSkill)
    (tr_install : String → Option String) (install_list : List DeltaEntry) :
    List String × List String :=
  batch_run tr_install (effective_install uuid catalog install_list)

/-- Embeds __marketplace_remove: filter the delta, run the remove batch
over the effective names, and return the attempted names (first
component) regardless of the per-item batch results (second component),
exactly as the source returns skills while discarding result. -/
def marketplace_remove (uuid : String) (catalog : List CatalogSkill)
    (tr_remove : String → Option String) (remove_list : List DeltaEntry) :
    List String × (List String × List String) :=
  (effective_remove uuid catalog remove_list,
   batch_run tr_remove (effective_remove uuid catalog remove_list))

/-- Embeds handle_marketplace: load the ledger, run the install batch,
merge installed and failed records, run the remove pass (whose is_local
filter sees the catalog as updated by the executed installs), delete
the ledger entries of the names the remove pass returned, and store the
ledger. -/
def handle_marketplace (now : Nat) (uuid : String) (catalog : List CatalogSkill)
    (tr_install tr_remove : String → Option String) (ledger : Ledger)
    (to_install to_remove : List DeltaEntry) : Ledger :=
  let r := marketplace_install uuid catalog tr_install to_install
  let led1 := mark_installed now ledger r.1
  let led2 := mark_failed led1 r.2
  let catalog2 := catalog_after_installs catalog r.1
  let removed := (marketplace_remove uuid catalog2 tr_remove to_remove).1
  removed.foldl (fun ld n => if (ledger_get ld n).isSome then ledger_del ld n else ld) led2

/-- One full marketplace pass as triggered by on_web_settings_change:
the raw-name tie-break, then the two effective sets as computed by the
install and the remove filters, the latter against the catalog state
left behind by the executed installs. -/
def marketplace_pass_sets (uuid : String) (catalog : List CatalogSkill)
    (tr_install : String → Option String)
    (to_install to_remove : List DeltaEntry) : List String × List String :=
  let p := on_web_settings_change_market to_install to_remove
  let eff_i := effective_install uuid catalog p.1
  let succ := (batch_run tr_install eff_i).1
  (eff_i, effective_remove uuid (catalog_after_installs catalog succ) p.2)

/-- The msm exception classes caught by handle_msm_errors.  Each
constructor models one exact exception class; other stands for any
other subclass of MsmException (the dictionary lookup on type(e) falls
through to its default).  The name-carrying constructors hold the
skill name passed to the exception constructor, which is str(e). -/
inductive MsmError where
  | skill_not_found (name : String)
  | skill_requirements
  | pip_requirements
  | system_requirements
  | clone_error
  | git_error
  | already_removed (name : String)
  | already_installed (name : String)
  | multiple_matches
  | other
deriving Repr, DecidableEq

/-- What a voice-path handler body can raise: an msm exception, or the
StopIteration used by find_skill to abort the interaction. -/
inductive RaisedErr where
  | msm (e : MsmError)
  | stop_iter
deriving Repr, DecidableEq

/-- Embeds clean_repo_name. -/
def clean_repo_name (repo : String) : String :=
  let name := (((repo.replace "skill" "").replace "fallback" "").replace "-" " ").trim
  if name.isEmpty then repo else name

/-- The error-dialog dictionary of handle_msm_errors, keyed on the
exact exception class, with default error.other. -/
def error_dialog : MsmError → String
  | .skill_not_found _ => "error.not.found"
  | .skill_requirements => "error.skill.requirements"
  | .pip_requirements => "error.pip.requirements"
  | .system_requirements => "error.system.requirements"
  | .clone_error => "error.filesystem"
  | .git_error => "error.filesystem"
  | .already_removed _ => "error.already.removed"
  | .already_installed _ => "error.already.installed"
  | .multiple_matches => "error.multiple.skills"
  | .other => "error.other"

/-- The skill name put into the dialog data: str(e) cleaned for the
three exceptions that carry a valid skill name, the spoken repo name
otherwise. -/
def msm_skill_name (repo_name : String) : MsmError → String
  | .skill_not_found n => clean_repo_name n
  | .already_removed n => clean_repo_name n
  | .already_installed n => clean_repo_name n
  | _ => repo_name

/-- One speak_dialog call: the dialog key and its data fields. -/
structure SpokenDialog where
  key : String
  skill : String
  action : String
deriving Repr, DecidableEq

/-- Embeds the handle_msm_errors context manager around a handler
body: a normal body result passes through; a raised MsmException is
swallowed and spoken as its mapped dialog; a raised StopIteration is
swallowed and spoken as the cancelled dialog.  The first component is
what the caller sees: never the raw cause. -/
def handle_msm_errors {α : Type} (repo_name action : String)
    (body : Except RaisedErr α) : Option α × List SpokenDialog :=
  match body with
  | .ok a => (some a, [])
  | .error (.msm e) => (none, [⟨error_dialog e, msm_skill_name repo_name e, action⟩])
  | .error .stop_iter => (none, [⟨"cancelled", "", ""⟩])

/-- Embeds confirm_skill_action: true exactly on the explicit yes
answer of ask_yesno; none models a timeout or unmatched response. -/
def confirm_skill_action (resp : Option String) : Bool :=
  resp == some "yes"

/-- One call to the transport collaborator of a voice handler. -/
inductive TransportCall where
  | install (name : String)
  | update (name : String)
  | remove (name : String)
deriving Repr, DecidableEq

/-- A skill as returned by msm.find_skill on the voice path. -/
structure VoiceSkill where
  name : String
  is_local : Bool
deriving Repr, DecidableEq

/-- How a voice handler body ends. -/
inductive VoiceOutcome where
  | completed
  | cancelled
  | already_beta
  | raised (e : RaisedErr)
deriving Repr, DecidableEq

/-- What a voice handler body did: the persisted ledger it leaves
behind, the transport calls it attempted in order, whether the
confirmation question was asked, and how it ended. -/
structure VoiceResult where
  ledger : Ledger
  calls : List TransportCall
  asked : Bool
  outcome : VoiceOutcome
deriving Repr, DecidableEq

/-- Runs a list of transport calls against the transport oracle,
stopping at the first failure: returns the calls attempted and the
exception of the failed one, if any. -/
def run_calls (tr : TransportCall → Option MsmError) :
    List TransportCall → List TransportCall × Option MsmError
  | [] => ([], none)
  | c :: cs =>
    match tr c with
    | some e => ([c], some e)
    | none =>
      let r := run_calls tr cs
      (c :: r.1, r.2)

/-- Embeds the body of the install intent handler after find_skill
succeeded: raise AlreadyInstalled when the skill is local and its
record is not marked beta; otherwise ask for confirmation, cancel on a
non-affirmative answer, else remove-then-install when local (plain
install otherwise) and overwrite the record with beta false and the
install metadata.  The ledger is only written on the success path. -/
def install_handler (now : Nat) (tr : TransportCall → Option MsmError)
    (skill : VoiceSkill) (ledger : Ledger) (resp : Option String) : VoiceResult :=
  let skill_data := (ledger_get ledger skill.name).getD {}
  let was_beta := skill_data.beta.getD false
  if !was_beta && skill.is_local then
    ⟨ledger, [], false, .raised (.msm (.already_installed skill.name))⟩
  else if !confirm_skill_action resp then
    ⟨ledger, [], true, .cancelled⟩
  else
    let calls := if skill.is_local then
        [TransportCall.remove skill.name, TransportCall.install skill.name]
      else [TransportCall.install skill.name]
    let r := run_calls tr calls
    match r.2 with
    | some e => ⟨ledger, r.1, true, .raised (.msm e)⟩
    | none =>
      let d := { skill_data with
                 beta := some false,
                 name := some skill.name,
                 origin := some "voice",
                 installation := some "installed",
                 installed := some now,
                 failure_message := some "" }
      ⟨ledger_set ledger skill.name d, r.1, true, .completed⟩

/-- Embeds the body of the install-beta intent handler after
find_skill succeeded: speak error.already.beta and return when the
skill is local and already marked beta; otherwise confirm, cancel on a
non-affirmative answer, else update when local (install otherwise) and
overwrite the record with beta true. -/
def install_beta_handler (now : Nat) (tr : TransportCall → Option MsmError)
    (skill : VoiceSkill) (ledger : Ledger) (resp : Option String) : VoiceResult :=
  let skill_data := (ledger_get ledger skill.name).getD {}
  let was_beta := skill_data.beta.getD false
  if was_beta && skill.is_local then
    ⟨ledger, [], false, .already_beta⟩
  else if !confirm_skill_action resp then
    ⟨ledger, [], true, .cancelled⟩
  else
    let calls := if skill.is_local then [TransportCall.update skill.name]
      else [TransportCall.install skill.name]
    let r := run_calls tr calls
    match r.2 with
    | some e => ⟨ledger, r.1, true, .raised (.msm e)⟩
    | none =>
      let d := { skill_data with
                 beta := some true,
                 name := some skill.name,
                 origin := some "voice",
                 installation := some "installed",
                 installed := some now,
                 failure_message := some "" }
      ⟨ledger_set ledger skill.name d, r.1, true, .completed⟩

/-- Embeds the body of the remove intent handler after find_skill
succeeded: raise AlreadyRemoved when the skill is not local; otherwise
confirm, cancel on a non-affirmative answer, else remove and delete
the ledger entry when present. -/
def remove_handler (tr : TransportCall → Option MsmError)
    (skill : VoiceSkill) (ledger : Ledger) (resp : Option String) : VoiceResult :=
  if !skill.is_local then
    ⟨ledger, [], false, .raised (.msm (.already_removed skill.name))⟩
  else if !confirm_skill_action resp then
    ⟨ledger, [], true, .cancelled⟩
  else
    let r := run_calls tr [TransportCall.remove skill.name]
    match r.2 with
    | some e => ⟨ledger, r.1, true, .raised (.msm e)⟩
    | none =>
      let led := if (ledger_get ledger skill.name).isSome then
          ledger_del ledger skill.name
        else ledger
      ⟨led, r.1, true, .completed⟩

/-- What msm.find_skill reports for a query: a unique match, a
MultipleSkillMatches exception carrying the candidates, or a
SkillNotFound exception. -/
inductive FindResult where
  | found (s : VoiceSkill)
  | multiple (candidates : List VoiceSkill)
  | not_found
deriving Repr, DecidableEq

/-- How find_skill ends: a resolved skill, or one of the exceptions it
lets escape to handle_msm_errors. -/
inductive FindOutcome where
  | ok (s : VoiceSkill)
  | raised_stop
  | raised_not_found (query : String)
  | raised_multiple (candidates : List VoiceSkill)
deriving Repr, DecidableEq

/-- The python truthiness test on the get_response result: false for a
timeout (None) and for the empty utterance. -/
def response_empty : Option String → Bool
  | none => true
  | some s => s.isEmpty

/-- Embeds find_skill.  The two msm.find_skill calls are oracle
parameters: fr1 is the result of the initial lookup of param, fr2 the
result of the narrowed lookup of the spoken response within the
filtered candidates.  The second component counts the get_response
prompts issued. -/
def find_skill (param : String) (loc : Bool) (fr1 : FindResult)
    (response : Option String) (fr2 : FindResult) : FindOutcome × Nat :=
  match fr1 with
  | .found s => (.ok s, 0)
  | .not_found => (.raised_not_found param, 0)
  | .multiple cands =>
    let skills := cands.filter (fun i => i.is_local == loc)
    if skills.length ≥ 10 then (.raised_stop, 0)
    else if !skills.isEmpty then
      if response_empty response then (.raised_stop, 1)
      else
        match fr2 with
        | .found s => (.ok s, 1)
        | .not_found => (.raised_not_found (response.getD ""), 1)
        | .multiple c2 => (.raised_multiple c2, 1)
    else (.raised_not_found param, 0)

/-- Concrete marketplace batch: skills a and b are remote, c is
installed. -/
def c2_catalog : List CatalogSkill := [⟨"a", false⟩, ⟨"b", false⟩, ⟨"c", true⟩]

/-- Concrete install transport: installing b raises an MsmException. -/
def c2_tr_install : String → Option String := fun n => if n = "b" then some "boom" else none

/-- Concrete remove transport: removing c raises an MsmException. -/
def c2_tr_remove : String → Option String := fun n => if n = "c" then some "rmfail" else none

/-- Concrete initial ledger holding the record of the installed c. -/
def c2_ledger0 : Ledger :=
  [("c", { origin := some "marketplace", installation := some "installed" })]

/-- The ledger left behind by handle_marketplace on the concrete batch:
install a and b, remove c. -/
def c2_result : Ledger :=
  handle_marketplace 100 "u" c2_catalog c2_tr_install c2_tr_remove c2_ledger0
    [⟨"a", none⟩, ⟨"b", none⟩] [⟨"c", none⟩]

/-- Dict lookup after dict assignment at the same key yields the
assigned record. -/
theorem ledger_get_set (l : Ledger) (k : String) (v : SkillRecord) :
    ledger_get (ledger_set l k v) k = some v := by
  induction l with
  | nil => simp [ledger_set, ledger_get]
  | cons p ps ih =>
    by_cases h : p.1 = k
    · simp [ledger_set, ledger_get, h]
    · simp [ledger_set, ledger_get, h, ih]

/-- Every name in the effective install list is the base name of some
entry of the incoming install delta. -/
theorem mem_effective_install {uuid : String} {catalog : List CatalogSkill}
    {l : List DeltaEntry} {n : String} (h : n ∈ effective_install uuid catalog l) :
    ∃ e, e ∈ l ∧ base_name e.name = n := by
  simp only [effective_install, filter_by_uuid, List.mem_filter, List.mem_map] at h
  obtain ⟨⟨⟨e, ⟨hel, _⟩, hbase⟩, _⟩, _⟩ := h
  exact ⟨e, hel, hbase⟩

/-- Every name in the effective remove list is the base name of some
entry of the incoming remove delta. -/
theorem mem_effective_remove {uuid : String} {catalog : List CatalogSkill}
    {l : List DeltaEntry} {n : String} (h : n ∈ effective_remove uuid catalog l) :
    ∃ e, e ∈ l ∧ base_name e.name = n := by
  simp only [effective_remove, filter_by_uuid, List.mem_filter, List.mem_map] at h
  obtain ⟨⟨e, ⟨hel, _⟩, hbase⟩, _⟩ := h
  exact ⟨e, hel, hbase⟩

/-- The install handler body ends in one of three ways: the
AlreadyInstalled raise (exactly when the skill is local and its record
is not marked beta), the cancellation branch (only when the
confirmation answer is not yes), or a branch past the confirmation
question (only when the answer is yes). -/
theorem install_handler_shape (now : Nat) (tr : TransportCall → Option MsmError)
    (skill : VoiceSkill) (ledger : Ledger) (resp : Option String) :
    (install_handler now tr skill ledger resp =
        ⟨ledger, [], false, .raised (.msm (.already_installed skill.name))⟩ ∧
      (!(((ledger_get ledger skill.name).getD {}).beta.getD false) && skill.is_local) = true) ∨
    (install_handler now tr skill ledger resp = ⟨ledger, [], true, .cancelled⟩ ∧
      confirm_skill_action resp = false) ∨
    ((install_handler now tr skill ledger resp).asked = true ∧
      confirm_skill_action resp = true) := by
  simp only [install_handler]
  split
  · rename_i hg
    exact Or.inl ⟨rfl, hg⟩
  · by_cases hcf : confirm_skill_action resp = true
    · refine Or.inr (Or.inr ⟨?_, hcf⟩)
      simp only [hcf, Bool.not_true, Bool.false_eq_true, if_false]
      split <;> rfl
    · have hcf' : confirm_skill_action resp = false := by simpa using hcf
      refine Or.inr (Or.inl ⟨?_, hcf'⟩)
      simp [hcf']

/-- The beta install handler body ends in one of three ways: the
already-beta early return, the cancellation branch, or a branch past
the confirmation question. -/
theorem install_beta_handler_shape (now : Nat) (tr : TransportCall → Option MsmError)
    (skill : VoiceSkill) (ledger : Ledger) (resp : Option String) :
    (install_beta_handler now tr skill ledger resp = ⟨ledger, [], false, .already_beta⟩) ∨
    (install_beta_handler now tr skill ledger resp = ⟨ledger, [], true, .cancelled⟩ ∧
      confirm_skill_action resp = false) ∨
    ((install_beta_handler now tr skill ledger resp).asked = true ∧
      confirm_skill_action resp = true) := by
  simp only [install_beta_handler]
  split
  · exact Or.inl rfl
  · by_cases hcf : confirm_skill_action resp = true
    · refine Or.inr (Or.inr ⟨?_, hcf⟩)
      simp only [hcf, Bool.not_true, Bool.false_eq_true, if_false]
      split <;> rfl
    · have hcf' : confirm_skill_action resp = false := by simpa using hcf
      refine Or.inr (Or.inl ⟨?_, hcf'⟩)
      simp [hcf']

/-- The remove handler body ends in one of three ways: the
AlreadyRemoved raise, the cancellation branch, or a branch past the
confirmation question. -/
theorem remove_handler_shape (tr : TransportCall → Option MsmError)
    (skill : VoiceSkill) (ledger : Ledger) (resp : Option String) :
    (remove_handler tr skill ledger resp =
        ⟨ledger, [], false, .raised (.msm (.already_removed skill.name))⟩) ∨
    (remove_handler tr skill ledger resp = ⟨ledger, [], true, .cancelled⟩ ∧
      confirm_skill_action resp = false) ∨
    ((remove_handler tr skill ledger resp).asked = true ∧
      confirm_skill_action resp = true) := by
  simp only [remove_handler]
  split
  · exact Or.inl rfl
  · by_cases hcf : confirm_skill_action resp = true
    · refine Or.inr (Or.inr ⟨?_, hcf⟩)
      simp only [hcf, Bool.not_true, Bool.false_eq_true, if_false]
      split <;> rfl
    · have hcf' : confirm_skill_action resp = false := by simpa using hcf
      refine Or.inr (Or.inl ⟨?_, hcf'⟩)
      simp [hcf']

/-- Claim C1: a raw name that appears in both the to_install and the
to_remove lists is dropped from the effective install list by
on_web_settings_change before processing, and hence ends up only in
the remove list handed to handle_marketplace (remove wins). -/
theorem C1_remove_wins (to_install to_remove : List DeltaEntry) (n : String)
    (hi : n ∈ to_install.map (fun e => e.name))
    (hr : n ∈ to_remove.map (fun e => e.name)) :
    n ∉ ((on_web_settings_change_market to_install to_remove).1.map (fun e => e.name)) ∧
    n ∈ ((on_web_settings_change_market to_install to_remove).2.map (fun e => e.name)) := by
  refine ⟨?_, hr⟩
  intro hmem
  simp only [on_web_settings_change_market, List.mem_map, List.mem_filter,
    decide_eq_true_eq] at hmem
  obtain ⟨e, ⟨he, hpred⟩, hname⟩ := hmem
  obtain ⟨f, hf, hfn⟩ := List.mem_map.mp hr
  exact hpred ⟨f, hf, by rw [hfn, hname]⟩

/-- Witness for C1 at a concrete delta with the name foo in both
lists. -/
theorem C1_remove_wins_witness :
    "foo" ∉ ((on_web_settings_change_market [⟨"foo", none⟩] [⟨"foo", none⟩]).1.map
        (fun e => e.name)) :=
  (C1_remove_wins [⟨"foo", none⟩] [⟨"foo", none⟩] "foo" (by decide) (by decide)).1

/-- Claim C2, evaluated at the failing input: in the concrete batch,
the install of a succeeded and its record carries installed status,
the current epoch and an empty failure message; the install of b
failed and its record carries failed status, epoch zero and a
non-empty failure message; but the removal of c FAILED (c is in the
failure component of the remove batch result, which the source
discards) and the ledger entry of c is deleted anyway, because
__marketplace_remove returns the attempted names rather than the
successful ones. -/
theorem C2_removal_deletion_eval :
    ledger_get c2_result "a" = some { origin := some "marketplace",
                                      installation := some "installed",
                                      installed := some 100,
                                      failure_message := some "",
                                      updated := some 0 } ∧
    ledger_get c2_result "b" = some { origin := some "marketplace",
                                      installation := some "failed",
                                      installed := some 0,
                                      failure_message := some "MsmException occured",
                                      updated := some 0 } ∧
    (marketplace_remove "u" (catalog_after_installs c2_catalog ["a"]) c2_tr_remove
        [⟨"c", none⟩]).2.2 = ["c"] ∧
    ledger_get c2_result "c" = none := by
  exact ⟨by decide, by decide, by decide, by decide⟩

/-- Claim C3: on each of the three voice paths, a confirmation answer
that is not the explicit yes (a timeout, an empty answer or any other
utterance) leaves the ledger unchanged and causes no transport call,
and whenever the confirmation question was actually asked the handler
ends cancelled. -/
theorem C3_cancel_no_mutation (now : Nat) (tr : TransportCall → Option MsmError)
    (skill : VoiceSkill) (ledger : Ledger) (resp : Option String)
    (h : resp ≠ some "yes") :
    ((install_handler now tr skill ledger resp).ledger = ledger ∧
      (install_handler now tr skill ledger resp).calls = [] ∧
      ((install_handler now tr skill ledger resp).asked = true →
        (install_handler now tr skill ledger resp).outcome = VoiceOutcome.cancelled)) ∧
    ((install_beta_handler now tr skill ledger resp).ledger = ledger ∧
      (install_beta_handler now tr skill ledger resp).calls = [] ∧
      ((install_beta_handler now tr skill ledger resp).asked = true →
        (install_beta_handler now tr skill ledger resp).outcome = VoiceOutcome.cancelled)) ∧
    ((remove_handler tr skill ledger resp).ledger = ledger ∧
      (remove_handler tr skill ledger resp).calls = [] ∧
      ((remove_handler tr skill ledger resp).asked = true →
        (remove_handler tr skill ledger resp).outcome = VoiceOutcome.cancelled)) := by
  have hc : confirm_skill_action resp = false := by
    cases resp with
    | none => rfl
    | some s =>
      have hs : s ≠ "yes" := fun hs => h (by rw [hs])
      simp [confirm_skill_action, hs]
  refine ⟨?_, ?_, ?_⟩
  · rcases install_handler_shape now tr skill ledger resp with ⟨h1, _⟩ | ⟨h1, _⟩ | ⟨_, hcf⟩
    · rw [h1]; exact ⟨rfl, rfl, fun hh => by simp at hh⟩
    · rw [h1]; exact ⟨rfl, rfl, fun _ => rfl⟩
    · rw [hc] at hcf; cases hcf
  · rcases install_beta_handler_shape now tr skill ledger resp with h1 | ⟨h1, _⟩ | ⟨_, hcf⟩
    · rw [h1]; exact ⟨rfl, rfl, fun hh => by simp at hh⟩
    · rw [h1]; exact ⟨rfl, rfl, fun _ => rfl⟩
    · rw [hc] at hcf; cases hcf
  · rcases remove_handler_shape tr skill ledger resp with h1 | ⟨h1, _⟩ | ⟨_, hcf⟩
    · rw [h1]; exact ⟨rfl, rfl, fun hh => by simp at hh⟩
    · rw [h1]; exact ⟨rfl, rfl, fun _ => rfl⟩
    · rw [hc] at hcf; cases hcf

/-- Witness for C3 at a concrete timed-out confirmation. -/
theorem C3_cancel_no_mutation_witness :
    (install_handler 0 (fun _ => none) ⟨"x", false⟩ [] none).calls = [] :=
  ((C3_cancel_no_mutation 0 (fun _ => none) ⟨"x", false⟩ [] none (by simp)).1).2.1

/-- Claim C4 as stated is false: with the catalog knowing the remote
skill foo, the delta installing foo.alice and removing foo.bob
survives the raw-name tie-break, the install of foo succeeds, and the
remove filter (running after the installs) then keeps foo, so the
name foo is in both effective sets of the same pass. -/
theorem C4_counterexample :
    "foo" ∈ (marketplace_pass_sets "u" [⟨"foo", false⟩] (fun _ => none)
        [⟨"foo.alice", none⟩] [⟨"foo.bob", none⟩]).1 ∧
    "foo" ∈ (marketplace_pass_sets "u" [⟨"foo", false⟩] (fun _ => none)
        [⟨"foo.alice", none⟩] [⟨"foo.bob", none⟩]).2 := by
  exact ⟨by decide, by decide⟩

/-- Claim C4 amended: when no delta entry is author-qualified (each
raw name equals its base name), no package name is in both the
effective install-set and the effective remove-set of the same pass,
even though the remove filter runs after the installs have executed. -/
theorem C4_amended_disjoint (uuid : String) (catalog : List CatalogSkill)
    (tri : String → Option String) (to_install to_remove : List DeltaEntry)
    (hi : ∀ e ∈ to_install, base_name e.name = e.name)
    (hr : ∀ e ∈ to_remove, base_name e.name = e.name) (n : String)
    (h1 : n ∈ (marketplace_pass_sets uuid catalog tri to_install to_remove).1) :
    n ∉ (marketplace_pass_sets uuid catalog tri to_install to_remove).2 := by
  intro h2
  simp only [marketplace_pass_sets] at h1 h2
  obtain ⟨e, he, hbe⟩ := mem_effective_install h1
  obtain ⟨f, hf, hbf⟩ := mem_effective_remove h2
  simp only [on_web_settings_change_market, List.mem_filter, decide_eq_true_eq] at he hf
  obtain ⟨hei, hnotin⟩ := he
  have hen : e.name = n := by rw [← hi e hei]; exact hbe
  have hfn : f.name = n := by rw [← hr f hf]; exact hbf
  apply hnotin
  exact List.mem_map.mpr ⟨f, hf, by rw [hfn, hen]⟩

/-- Witness for the amended C4 at the concrete unqualified delta of
the spec scenario. -/
theorem C4_amended_disjoint_witness :
    "joke" ∉ (marketplace_pass_sets "u" [⟨"joke", false⟩, ⟨"weather", true⟩] (fun _ => none)
        [⟨"joke", none⟩] [⟨"weather", none⟩]).2 :=
  C4_amended_disjoint "u" [⟨"joke", false⟩, ⟨"weather", true⟩] (fun _ => none)
    [⟨"joke", none⟩] [⟨"weather", none⟩] (by decide) (by decide) "joke" (by decide)

/-- Claim C5: when the base name of a delta entry is already local in
the catalog, the entry is filtered out of the effective install list
(so the transport is never called for it), and a marketplace pass
consisting of that entry alone leaves the ledger exactly as it was. -/
theorem C5_second_pass_noop (now : Nat) (uuid : String) (catalog : List CatalogSkill)
    (tri trr : String → Option String) (ledger : Ledger) (e : DeltaEntry)
    (h : ∃ c, c ∈ catalog ∧ c.name = base_name e.name ∧ c.is_local = true) :
    effective_install uuid catalog [e] = [] ∧
    handle_marketplace now uuid catalog tri trr ledger [e] [] = ledger := by
  obtain ⟨c, hc, hcn, hcl⟩ := h
  have hmem : base_name e.name ∈ (catalog.filter (fun s => s.is_local)).map
      (fun s => s.name) :=
    List.mem_map.mpr ⟨c, List.mem_filter.mpr ⟨hc, by simp [hcl]⟩, hcn⟩
  have heff : effective_install uuid catalog [e] = [] := by
    unfold effective_install
    rw [List.filter_eq_nil_iff]
    intro a ha
    have haeq : a = base_name e.name := by
      simp only [List.mem_filter, List.mem_map, filter_by_uuid] at ha
      obtain ⟨⟨e2, he2, hae⟩, _⟩ := ha
      have : e2 = e := by
        simpa using he2.1
      rw [← hae, this]
    rw [haeq]
    simp [hmem]
  refine ⟨heff, ?_⟩
  have hmi : marketplace_install uuid catalog tri [e] = ([], []) := by
    rw [marketplace_install, heff]; rfl
  simp [handle_marketplace, hmi, mark_installed, mark_failed, marketplace_remove,
    effective_remove, filter_by_uuid, batch_run]

/-- Witness for C5 at a concrete catalog where x is already local. -/
theorem C5_second_pass_noop_witness :
    handle_marketplace 5 "u" [⟨"x", true⟩] (fun _ => none) (fun _ => none)
      [("x", { installation := some "installed" })] [⟨"x", none⟩] [] =
      [("x", { installation := some "installed" })] :=
  (C5_second_pass_noop 5 "u" [⟨"x", true⟩] (fun _ => none) (fun _ => none)
    [("x", { installation := some "installed" })] ⟨"x", none⟩
    ⟨⟨"x", true⟩, by decide, by decide, rfl⟩).2

/-- Claim C6: in an install batch where the operation on a succeeds
and the operation on b raises an MsmException, the batch result
records a as a success and b as a failure; in general the batch
partitions the submitted names into successes and failures by the
per-item outcome, so one failure neither aborts the others nor is
raised out of the batch call, nor is the failed item omitted. -/
theorem C6_batch_isolation (tri : String → Option String) (a b msg : String)
    (ha : tri a = none) (hb : tri b = some msg) :
    batch_run tri [a, b] = ([a], [b]) ∧
    (∀ (op : String → Option String) (names : List String),
      (batch_run op names).1 = names.filter (fun n => (op n).isNone) ∧
      (batch_run op names).2 = names.filter (fun n => (op n).isSome)) := by
  have hgen : ∀ (op : String → Option String) (names : List String),
      (batch_run op names).1 = names.filter (fun n => (op n).isNone) ∧
      (batch_run op names).2 = names.filter (fun n => (op n).isSome) := by
    intro op names
    induction names with
    | nil => simp [batch_run]
    | cons n ns ih =>
      cases hop : op n <;> simp [batch_run, hop, ih.1, ih.2]
  refine ⟨?_, hgen⟩
  simp [batch_run, ha, hb]

/-- Witness for C6 at a concrete transport failing exactly on b. -/
theorem C6_batch_isolation_witness :
    batch_run (fun n => if n = "b" then some "boom" else none) ["a", "b"] = (["a"], ["b"]) :=
  (C6_batch_isolation (fun n => if n = "b" then some "boom" else none) "a" "b" "boom"
    (by decide) (by decide)).1

/-- Claim C7: the device-scope filter keeps exactly the entries whose
devices field is absent or empty or contains the local device uuid;
in particular an entry scoped to uuid1 is dropped on the device uuid2,
kept on uuid1, and entries with an empty or missing devices field are
always kept. -/
theorem C7_device_scope_filter :
    (∀ (uuid : String) (l : List DeltaEntry) (e : DeltaEntry),
        e ∈ filter_by_uuid uuid l ↔ e ∈ l ∧ keep_for_device uuid e = true) ∧
    filter_by_uuid "uuid2" [⟨"x", some ["uuid1"]⟩] = [] ∧
    filter_by_uuid "uuid1" [⟨"x", some ["uuid1"]⟩] = [⟨"x", some ["uuid1"]⟩] ∧
    filter_by_uuid "uuid2" [⟨"x", some []⟩, ⟨"y", none⟩] = [⟨"x", some []⟩, ⟨"y", none⟩] := by
  refine ⟨?_, by decide, by decide, by decide⟩
  intro uuid l e
  simp [filter_by_uuid, List.mem_filter]

/-- Claim C8: every MsmException caught by handle_msm_errors yields
exactly one spoken dialog, whose kind is the designated one for each
known exception class and error.other for any other MsmException, and
the caller never receives the raw cause. -/
theorem C8_error_classification :
    (∀ (repo act : String) (e : MsmError),
        (handle_msm_errors repo act (Except.error (RaisedErr.msm e) : Except RaisedErr Unit)).1 =
          none ∧
        (handle_msm_errors repo act (Except.error (RaisedErr.msm e) : Except RaisedErr Unit)).2.map
            (fun d => d.key) = [error_dialog e]) ∧
    (∀ n, error_dialog (MsmError.skill_not_found n) = "error.not.found") ∧
    error_dialog MsmError.skill_requirements = "error.skill.requirements" ∧
    error_dialog MsmError.pip_requirements = "error.pip.requirements" ∧
    error_dialog MsmError.system_requirements = "error.system.requirements" ∧
    error_dialog MsmError.clone_error = "error.filesystem" ∧
    error_dialog MsmError.git_error = "error.filesystem" ∧
    (∀ n, error_dialog (MsmError.already_removed n) = "error.already.removed") ∧
    (∀ n, error_dialog (MsmError.already_installed n) = "error.already.installed") ∧
    error_dialog MsmError.multiple_matches = "error.multiple.skills" ∧
    error_dialog MsmError.other = "error.other" := by
  exact ⟨fun repo act e => ⟨rfl, rfl⟩, fun n => rfl, rfl, rfl, rfl, rfl, rfl,
    fun n => rfl, fun n => rfl, rfl, rfl⟩

/-- Claim C9 as stated is false: with a nonempty narrowed candidate
set and no response to the single re-prompt, find_skill raises
StopIteration, which handle_msm_errors turns into the cancelled
dialog, not into a NotFound failure. -/
theorem C9_counterexample :
    (find_skill "news" false
        (FindResult.multiple [⟨"daily news one", false⟩, ⟨"daily news two", false⟩])
        none FindResult.not_found).1 = FindOutcome.raised_stop ∧
    FindOutcome.raised_stop ≠ FindOutcome.raised_not_found "news" ∧
    (handle_msm_errors "news" "remove" (Except.error RaisedErr.stop_iter :
        Except RaisedErr Unit)).2.map (fun d => d.key) = ["cancelled"] := by
  exact ⟨by decide, by decide, rfl⟩

/-- Claim C9 amended: the disambiguation flow issues at most one
re-prompt; when the locality filtering leaves no candidates the
operation raises SkillNotFound for the original query; when candidates
remain (fewer than ten) and the single re-prompt gets no response, the
operation is cancelled via StopIteration rather than failing NotFound. -/
theorem C9_single_reprompt (param : String) (loc : Bool) (fr1 : FindResult)
    (response : Option String) (fr2 : FindResult) :
    (find_skill param loc fr1 response fr2).2 ≤ 1 ∧
    (∀ cands, fr1 = FindResult.multiple cands →
      ((cands.filter (fun i => i.is_local == loc)) = [] →
        (find_skill param loc fr1 response fr2).1 = FindOutcome.raised_not_found param) ∧
      ((cands.filter (fun i => i.is_local == loc)).length < 10 →
        (cands.filter (fun i => i.is_local == loc)) ≠ [] →
        response_empty response = true →
        (find_skill param loc fr1 response fr2).1 = FindOutcome.raised_stop)) := by
  constructor
  · cases fr1 with
    | found s => simp [find_skill]
    | not_found => simp [find_skill]
    | multiple cands =>
      simp only [find_skill]
      repeat' split
      all_goals simp
  · intro cands heq
    subst heq
    constructor
    · intro hnil
      simp [find_skill, hnil]
    · intro hlen hne hresp
      have h10 : ¬((cands.filter (fun i => i.is_local == loc)).length ≥ 10) := by omega
      have hemp : (cands.filter (fun i => i.is_local == loc)).isEmpty = false := by
        simpa [List.isEmpty_iff] using hne
      simp [find_skill, h10, hemp, hresp]

/-- Witness for the amended C9 at a concrete ambiguous query with a
timed-out re-prompt. -/
theorem C9_single_reprompt_witness :
    (find_skill "news" false (FindResult.multiple [⟨"daily news", false⟩]) none
        FindResult.not_found).1 = FindOutcome.raised_stop :=
  (((C9_single_reprompt "news" false (FindResult.multiple [⟨"daily news", false⟩]) none
      FindResult.not_found).2 [⟨"daily news", false⟩] rfl).2) (by decide) (by decide) (by decide)

/-- Claim C10: the voice install path raises AlreadyInstalled before
the confirmation question and before any transport call exactly when
the skill is local and its record is not marked beta; when the skill
is local and marked beta, a confirmed install performs the
remove-then-install reinstall and rewrites the record with beta
false. -/
theorem C10_beta_reinstall (now : Nat) (tr : TransportCall → Option MsmError)
    (skill : VoiceSkill) (ledger : Ledger) (resp : Option String) :
    (((install_handler now tr skill ledger resp).outcome =
          VoiceOutcome.raised (RaisedErr.msm (MsmError.already_installed skill.name)) ∧
        (install_handler now tr skill ledger resp).asked = false) ↔
      (skill.is_local = true ∧
        ((ledger_get ledger skill.name).getD {}).beta.getD false = false)) ∧
    ((skill.is_local = true ∧
        ((ledger_get ledger skill.name).getD {}).beta.getD false = false) →
      install_handler now tr skill ledger resp =
        ⟨ledger, [], false,
          VoiceOutcome.raised (RaisedErr.msm (MsmError.already_installed skill.name))⟩) ∧
    (skill.is_local = true →
      ((ledger_get ledger skill.name).getD {}).beta.getD false = true →
      resp = some "yes" →
      tr (TransportCall.remove skill.name) = none →
      tr (TransportCall.install skill.name) = none →
      (install_handler now tr skill ledger resp).asked = true ∧
      (install_handler now tr skill ledger resp).calls =
        [TransportCall.remove skill.name, TransportCall.install skill.name] ∧
      (install_handler now tr skill ledger resp).outcome = VoiceOutcome.completed ∧
      ((ledger_get (install_handler now tr skill ledger resp).ledger skill.name).getD
          {}).beta = some false) := by
  have hpart2 : (skill.is_local = true ∧
      ((ledger_get ledger skill.name).getD {}).beta.getD false = false) →
      install_handler now tr skill ledger resp =
        ⟨ledger, [], false,
          VoiceOutcome.raised (RaisedErr.msm (MsmError.already_installed skill.name))⟩ := by
    rintro ⟨hl, hb⟩
    simp [install_handler, hl, hb]
  refine ⟨⟨?_, fun hh => by rw [hpart2 hh]; exact ⟨rfl, rfl⟩⟩, hpart2, ?_⟩
  · rintro ⟨hout, hask⟩
    rcases install_handler_shape now tr skill ledger resp with ⟨_, hg⟩ | ⟨h1, _⟩ | ⟨hask2, _⟩
    · have hg' : ((ledger_get ledger skill.name).getD {}).beta.getD false = false ∧
          skill.is_local = true := by simpa using hg
      exact ⟨hg'.2, hg'.1⟩
    · rw [h1] at hout; cases hout
    · rw [hask2] at hask; cases hask
  · intro hl hb hresp htr1 htr2
    simp [install_handler, hl, hb, hresp, confirm_skill_action, run_calls, htr1, htr2,
      ledger_get_set]

/-- Witness for C10 at a concrete local beta-marked skill with a
confirmed reinstall. -/
theorem C10_beta_reinstall_witness :
    ((ledger_get (install_handler 7 (fun _ => none) ⟨"x", true⟩
        [("x", { beta := some true })] (some "yes")).ledger "x").getD {}).beta =
      some false :=
  ((C10_beta_reinstall 7 (fun _ => none) ⟨"x", true⟩ [("x", { beta := some true })]
      (some "yes")).2.2 (by decide) (by decide) rfl rfl rfl).2.2.2

end SkillInstaller
